import Mathlib

/-!
Shallow embedding of the two inventory-synchronisation scripts of the
repository (`A2Z_Dimm_Pull.py` and `Lenovo_Redfish.py`) and proofs of the
specification claims about them.

Python strings are modelled as Lean `String`, Python `None`-or-string values
as `Option String`, database tables as in-memory lists of row structures,
and the single database transaction as explicit state passing where a fatal
error (`Option.none`) discards the working state.
-/

namespace Std2Proof

/-! ## Python string primitives used by both scripts -/

/-- ASCII whitespace characters matched by Python `str.strip`, `str.split`
and the regex class in the source scripts. -/
def pyIsSpace (c : Char) : Bool :=
  c = ' ' || c = '\t' || c = '\n' || c = '\r' || c = '\x0b' || c = '\x0c'

/-- Python `str.lower()` on one ASCII character. -/
def pyLowerChar (c : Char) : Char :=
  if 'A' ≤ c ∧ c ≤ 'Z' then Char.ofNat (c.toNat + 32) else c

/-- Python `str.lower()` restricted to ASCII strings. -/
def pyLower (s : String) : String :=
  String.mk (s.data.map pyLowerChar)

/-- Python `str.upper()` on one ASCII character. -/
def pyUpperChar (c : Char) : Char :=
  if 'a' ≤ c ∧ c ≤ 'z' then Char.ofNat (c.toNat - 32) else c

/-- Python `str.upper()` restricted to ASCII strings. -/
def pyUpper (s : String) : String :=
  String.mk (s.data.map pyUpperChar)

/-- Python `str.strip()` with no argument: drop leading and trailing
whitespace. -/
def pyStrip (s : String) : String :=
  String.mk (((s.data.dropWhile pyIsSpace).reverse.dropWhile pyIsSpace).reverse)

/-- Worker for Python `str.split()` with no argument: split on maximal
whitespace runs, never producing empty tokens.  `acc` holds the current
token reversed. -/
def pySplitGo : List Char → List Char → List String
  | [], [] => []
  | [], acc => [String.mk acc.reverse]
  | c :: rest, acc =>
    if pyIsSpace c then
      match acc with
      | [] => pySplitGo rest []
      | _ => String.mk acc.reverse :: pySplitGo rest []
    else
      pySplitGo rest (c :: acc)

/-- Python `str.split()` with no argument. -/
def pySplit (s : String) : List String :=
  pySplitGo s.data []

/-- Worker modelling `re.split` with the pattern of two-or-more whitespace
characters (as used in `A2Z_Dimm_Pull.py`).  `acc` is the current token
reversed; `pend` is the reversed run of whitespace characters seen
immediately before the current position.  A run of length at least two is a
separator (the regex is greedy, so the whole run is consumed); a run of
length one stays inside the token. -/
def splitWs2Go : List Char → List Char → List Char → List String
  | [], acc, pend =>
    if pend.length ≥ 2 then [String.mk acc.reverse, ""]
    else [String.mk (pend ++ acc).reverse]
  | c :: rest, acc, pend =>
    if pyIsSpace c then
      splitWs2Go rest acc (c :: pend)
    else
      if pend.length ≥ 2 then
        String.mk acc.reverse :: splitWs2Go rest [c] []
      else
        splitWs2Go rest (c :: (pend ++ acc)) []

/-- Model of `re.split` on runs of two or more whitespace characters. -/
def splitWs2 (s : String) : List String :=
  splitWs2Go s.data [] []

/-- Model of Python `re.sub` for a single-character literal pattern:
replace every occurrence of character `c` by the string `repl`. -/
def reSubChar (c : Char) (repl : String) (s : String) : String :=
  String.mk (go s.data)
where
  go : List Char → List Char
    | [] => []
    | d :: rest => if d = c then repl.data ++ go rest else d :: go rest

/-- Python substring test `needle in hay` on strings. -/
def pyInStr (needle hay : String) : Bool :=
  go hay.data
where
  go : List Char → Bool
    | [] => needle.data.isEmpty
    | l@(_ :: t) => needle.data.isPrefixOf l || go t

/-! ## A2Z_Dimm_Pull.py -/

/-- Asterisk removal applied to each serial fetched by the SQL query:
`re.sub` of the pattern matching a literal asterisk by the empty string. -/
def cleanSerial (s : String) : String :=
  reSubChar '*' "" s

/-- One output row of the DIMM report. -/
structure DimmRecord where
  systemSerial : String
  dimmSerial : String
  dimmManufacturer : String
  dimmPartNumber : String
  deriving Repr, DecidableEq

/-- The token list the script keeps for a line: split the stripped line on
runs of two or more whitespace characters and keep only tokens longer than
five characters. -/
def qualifyingColumns (line : String) : List String :=
  (splitWs2 (pyStrip line)).filter (fun col => col.length > 5)

/-- Per-line body of the parsing loop of `A2Z_Dimm_Pull.py` (lines 70-90):
non-empty lines with at least six qualifying tokens yield one record whose
serial, manufacturer and part number are the stripped tokens at offsets
4, 2 and 3. -/
def parseDimmLine (systemSerial line : String) : Option DimmRecord :=
  if pyStrip line ≠ "" then
    let columns := qualifyingColumns line
    if columns.length ≥ 6 then
      some {
        systemSerial := systemSerial,
        dimmSerial := pyStrip (columns.getD 4 ""),
        dimmManufacturer := pyStrip (columns.getD 2 ""),
        dimmPartNumber := pyStrip (columns.getD 3 "") }
    else none
  else none

/-- The whole-file parsing loop: split the file on newlines, skip the header
line, and run the per-line body on each remaining line. -/
def parseDimmFile (systemSerial contents : String) : List DimmRecord :=
  ((contents.splitOn "\n").drop 1).filterMap (parseDimmLine systemSerial)

/-! ## Lenovo_Redfish.py: input-file (KEY.txt) parsing -/

/-- Outcome of the per-line input parsing in `__main__`. -/
inductive KeyLineResult where
  | comment
  | pair (ip ixSerial : String)
  | fatal
  deriving Repr, DecidableEq

/-- Body of the `__main__` input-file loop (lines 695-709): a line whose
first raw character is `#` is skipped; otherwise the stripped line is split
on whitespace and anything other than exactly two tokens aborts the batch. -/
def processKeyLine (line : String) : KeyLineResult :=
  if line.length > 0 ∧ line.data.headD ' ' = '#' then
    .comment
  else
    let tokens := pySplit (pyStrip line)
    if tokens.length ≠ 2 then
      .fatal
    else
      .pair (tokens.getD 0 "") (tokens.getD 1 "")

/-! ## Lenovo_Redfish.py: HTTP fetch model (get_http_response_body) -/

/-- A parsed JSON value as returned by `response.json()`. -/
inductive Json where
  | null
  | bool (b : Bool)
  | num (n : Int)
  | str (s : String)
  | arr (xs : List Json)
  | obj (fields : List (String × Json))

/-- Whether a JSON value is an object (a Python `dict`). -/
def Json.isObj : Json → Bool
  | .obj _ => true
  | _ => false

/-- The part of an HTTP response that `get_http_response_body` inspects:
the success flag `response.ok` and the body, `none` when `response.json()`
raises a JSON decode error. -/
structure HttpResponse where
  ok : Bool
  body : Option Json

/-- Model of `get_http_response_body` (lines 357-383).  On a successful
response whose body decodes, the parsed body is returned; on an HTTP
failure the `try` block is never entered and the final `return {}` yields
the empty dict.  On a successful response whose body does not decode,
`response.json()` raises and control reaches the handler clause
`except requests.RequestsJSONDecodeError:` — but the `requests` module has
no attribute of that name (only `requests.exceptions.JSONDecodeError` is
exported), so evaluating the clause raises `AttributeError` and the
uncaught exception aborts the pipeline (`none`) instead of reaching
`return {}`. -/
def get_http_response_body (response : HttpResponse) : Option Json :=
  if response.ok then
    match response.body with
    | some body => some body
    | none => none
  else
    some (Json.obj [])

/-! ## Lenovo_Redfish.py: component parsing (memory slots, NIC MACs) -/

/-- A JSON field value of a component detail body: the key may be missing
entirely, present with value `null`, or present with a string value. -/
inductive FieldVal where
  | missing
  | null
  | str (s : String)
  deriving Repr, DecidableEq

/-- Python `body.get(key, '')` on such a field: a missing key gives the
default `''`; a `null` value gives Python `None` (modelled `none`); a
string value gives the string. -/
def FieldVal.getD : FieldVal → Option String
  | .missing => some ""
  | .null => none
  | .str s => some s

/-- The three fields of a memory detail body read by the memory loop. -/
structure MemBody where
  manufacturer : FieldVal
  partNumber : FieldVal
  serialNumber : FieldVal
  deriving Repr, DecidableEq

/-- A component record appended to the bundle: field values are the results
of `body.get(key, '')`, so each is a string or Python `None`. -/
structure CompEntry where
  manufacturer : Option String
  model : Option String
  serial : Option String
  deriving Repr, DecidableEq

/-- Body of one iteration of the memory loop (lines 468-483): read the
three fields with `get`, skip the slot when both the part number and the
serial are Python `None` (the key present with JSON value `null`),
otherwise append one record. -/
def memoryStep (body : MemBody) : Option CompEntry :=
  let memory_manufacturer := body.manufacturer.getD
  let memory_model := body.partNumber.getD
  let memory_serial := body.serialNumber.getD
  if memory_model = none ∧ memory_serial = none then
    none
  else
    some {
      manufacturer := memory_manufacturer,
      model := memory_model,
      serial := memory_serial }

/-- The memory list built by the loop from the fetched detail bodies. -/
def memoryRecords (bodies : List MemBody) : List CompEntry :=
  bodies.filterMap memoryStep

/-- One member of the ethernet-interface collection: its `@odata.id`
link, `none` when the key is missing (Python `get` default `''`). -/
structure EthMember where
  odata : Option String
  deriving Repr, DecidableEq

/-- A MAC record appended to the bundle. -/
structure MacEntry where
  name : String
  mac : String
  deriving Repr, DecidableEq

/-- Worker for the NIC MAC loop (lines 532-545): `fetchMac` maps a link to
the `PermanentMACAddress` obtained from its fetched detail body; `n` is the
running `nic_number` counter.  Links not containing the substring `NIC`
(the management controller's own interface) are skipped without
incrementing the counter. -/
def nicMacGo (fetchMac : String → String) : List EthMember → Nat → List MacEntry
  | [], _ => []
  | m :: rest, n =>
    let mac_link := m.odata.getD ""
    if pyInStr "NIC" mac_link then
      { name := "NIC " ++ toString n ++ " MAC", mac := fetchMac mac_link }
        :: nicMacGo fetchMac rest (n + 1)
    else
      nicMacGo fetchMac rest n

/-- The NIC MAC list built by the loop, with `nic_number` starting at 1. -/
def nicMacRecords (fetchMac : String → String) (members : List EthMember) : List MacEntry :=
  nicMacGo fetchMac members 1

/-! ## Lenovo_Redfish.py: translation tables -/

/-- Table `MANUFACTURER_DICT` (lines 42-56): vendor-reported manufacturer,
case-folded, to STD lower-case manufacturer name. -/
def MANUFACTURER_DICT : List (String × String) :=
  [("ixsystems", "ix systems"),
   ("lenovo", "lenovo"),
   ("intel(r) corporation", "intel"),
   ("samsung", "samsung"),
   ("micron", "micron"),
   ("micron technology", "micron"),
   ("acbe", "acbel"),
   ("grea", "great wall"),
   ("mellanox technologies", "mellanox technologies"),
   ("sk hynix", "sk hynix korea"),
   ("hynix", "hynix"),
   ("broadcom", "broadcom"),
   ("broadcom limited", "broadcom")]

/-- Table `TYPE_DICT` (lines 59-67): simple part type name to STD lower-case
part type name. -/
def TYPE_DICT : List (String × String) :=
  [("cpu", "cpu"),
   ("memory", "memory"),
   ("nic", "nic"),
   ("ssd", "ssd m.2"),
   ("psu", "power supply"),
   ("motherboard", "motherboard"),
   ("password", "unique password")]

/-- Python dict subscript `d[k]`: `none` models the `KeyError` that aborts
the batch. -/
def dictLookup (d : List (String × String)) (k : String) : Option String :=
  (d.find? (fun p => p.1 == k)).map (fun p => p.2)

/-! ## Lenovo_Redfish.py: STD database model -/

/-- A `production_part` row with the columns `insert_part` touches. -/
structure PartRow where
  id : Nat
  system_id : Nat
  serial : String
  model : String
  type_id : Nat
  manufacturer_id : Nat
  intel_sa_number : String
  support_number : String
  rma : Bool
  revision : String
  part_revision : String
  deriving Repr, DecidableEq

/-- A `production_mac` row. -/
structure MacRow where
  id : Nat
  system_id : Nat
  name : String
  mac : String
  deriving Repr, DecidableEq

/-- In-memory model of the STD tables this pipeline reads and writes, plus
the per-table insert log of `StdDatabase`.  `production_system`,
`production_manufacturer` and `production_type` are read-only reference
tables of (id, name) pairs; the `next*Id` counters model the ids the
database assigns in `INSERT ... RETURNING id`. -/
structure Db where
  systems : List (Nat × String)
  manufacturers : List (Nat × String)
  types : List (Nat × String)
  parts : List PartRow
  macs : List MacRow
  nextPartId : Nat
  nextMacId : Nat
  partLog : List Nat
  macLog : List Nat
  deriving Repr, DecidableEq

/-- Method `StdDatabase.get_system_id` (lines 179-201): select the first
`production_system` row by serial; an empty result is fatal (`none`). -/
def get_system_id (db : Db) (system_serial : String) : Option Nat :=
  (db.systems.find? (fun r => r.2 == system_serial)).map (fun r => r.1)

/-- Method `StdDatabase.get_manufacturer_id` (lines 203-225): select the first
`production_manufacturer` row by lower-case name; empty result is fatal. -/
def get_manufacturer_id (db : Db) (manufacturer_name : String) : Option Nat :=
  (db.manufacturers.find? (fun r => r.2 == manufacturer_name)).map (fun r => r.1)

/-- Method `StdDatabase.get_part_type_id` (lines 227-249): lower-case the name,
then select the first `production_type` row by it; empty result is fatal. -/
def get_part_type_id (db : Db) (part_type_name : String) : Option Nat :=
  (db.types.find? (fun r => r.2 == pyLower part_type_name)).map (fun r => r.1)

/-- The `SELECT` of `insert_part`: all `production_part` rows matching the
(system, model, serial) triple, in table order. -/
def partMatches (db : Db) (system_id : Nat) (part_model part_serial : String) : List PartRow :=
  db.parts.filter (fun r =>
    r.system_id == system_id && r.model == part_model && r.serial == part_serial)

/-- Method `StdDatabase.insert_part` (lines 251-308): check for an existing row
matching (system, model, serial); if found return its id unchanged; if not,
insert one row with the given attributes and the fixed defaults (empty
`intel_sa_number`, empty support number, `rma = False`, empty revision
fields), append the new id to the `production_part` insert log, and return
the new id. -/
def insert_part (db : Db) (system_id : Nat) (part_model part_serial : String)
    (type_id manufacturer_id : Nat) : Db × Nat :=
  match partMatches db system_id part_model part_serial with
  | [] =>
    let newRow : PartRow := {
      id := db.nextPartId,
      system_id := system_id,
      serial := part_serial,
      model := part_model,
      type_id := type_id,
      manufacturer_id := manufacturer_id,
      intel_sa_number := "",
      support_number := "",
      rma := false,
      revision := "",
      part_revision := "" }
    ({ db with
        parts := db.parts ++ [newRow],
        nextPartId := db.nextPartId + 1,
        partLog := db.partLog ++ [newRow.id] },
     newRow.id)
  | r :: _ => (db, r.id)

/-- The `SELECT` of `insert_mac`: all `production_mac` rows matching the
(system, name) pair, in table order. -/
def macMatches (db : Db) (system_id : Nat) (mac_name : String) : List MacRow :=
  db.macs.filter (fun r => r.system_id == system_id && r.name == mac_name)

/-- Method `StdDatabase.insert_mac` (lines 310-354): an address longer than 17
characters is fatal (rollback and exit) before any query; otherwise check
for an existing row keyed on (system, name); if found return its id, else
insert one row, log the new id and return it. -/
def insert_mac (db : Db) (system_id : Nat) (mac_name mac_address : String) :
    Option (Db × Nat) :=
  if mac_address.length > 17 then
    none
  else
    match macMatches db system_id mac_name with
    | [] =>
      let newRow : MacRow := {
        id := db.nextMacId,
        system_id := system_id,
        name := mac_name,
        mac := mac_address }
      some ({ db with
          macs := db.macs ++ [newRow],
          nextMacId := db.nextMacId + 1,
          macLog := db.macLog ++ [newRow.id] },
        newRow.id)
    | r :: _ => some (db, r.id)

/-- Modelled from the spec: `update_std` reads an attribute
`std.rows_inserted` that is defined nowhere in the repository's source; the
spec describes the insert log as "used only for reporting a per-system and
per-batch count of rows inserted", so the attribute is modelled as the
total count of logged newly inserted row ids.  It is read only for
printing and has no effect on control flow or data. -/
def Db.rows_inserted (db : Db) : Nat :=
  db.partLog.length + db.macLog.length

/-! ## Lenovo_Redfish.py: update_std -/

/-- A component record of the intermediate bundle as consumed by
`update_std`: manufacturer, model and serial strings. -/
structure CompRec where
  manufacturer : String
  model : String
  serial : String
  deriving Repr, DecidableEq

/-- A MAC record of the bundle. -/
structure MacRec where
  name : String
  mac : String
  deriving Repr, DecidableEq

/-- The per-system component bundle built by `parse_system_components` and
consumed by `update_std`. -/
structure Components where
  motherboard : CompRec
  cpu : List CompRec
  memory : List CompRec
  psu : List CompRec
  ssd : List CompRec
  nic : List CompRec
  mac : List MacRec
  deriving Repr, DecidableEq

/-- The CPU/memory loops of `update_std` (lines 593-618): for each record,
look up the part type (the dict access and the database lookup are inside
the loop), case-fold the manufacturer and translate it (a missing entry is
a fatal `KeyError`), resolve the manufacturer id, and upsert the part. -/
def insertPartsEachType (db : Db) (system_id : Nat) (typeKey : String) :
    List CompRec → Option Db
  | [] => some db
  | rec :: rest => do
    let part_type ← dictLookup TYPE_DICT typeKey
    let part_type_id ← get_part_type_id db part_type
    let manufacturer ← dictLookup MANUFACTURER_DICT (pyLower rec.manufacturer)
    let manufacturer_id ← get_manufacturer_id db manufacturer
    let db' := (insert_part db system_id rec.model rec.serial part_type_id manufacturer_id).1
    insertPartsEachType db' system_id typeKey rest

/-- The PSU/SSD/NIC loops of `update_std` (lines 621-660): the part type id
is resolved once before the loop; each record's manufacturer is case-folded
and translated (missing entry fatal) before the upsert. -/
def insertPartsWithType (db : Db) (system_id part_type_id : Nat) :
    List CompRec → Option Db
  | [] => some db
  | rec :: rest => do
    let manufacturer ← dictLookup MANUFACTURER_DICT (pyLower rec.manufacturer)
    let manufacturer_id ← get_manufacturer_id db manufacturer
    let db' := (insert_part db system_id rec.model rec.serial part_type_id manufacturer_id).1
    insertPartsWithType db' system_id part_type_id rest

/-- The MAC loop of `update_std` (lines 676-681): upsert each address,
upper-cased; an oversized address is fatal. -/
def insertMacs (db : Db) (system_id : Nat) : List MacRec → Option Db
  | [] => some db
  | m :: rest => do
    let (db', _) ← insert_mac db system_id m.name (pyUpper m.mac)
    insertMacs db' system_id rest

/-- The motherboard block of `update_std` (lines 579-590): translate the
part type and the case-folded manufacturer (missing dict entries fatal),
resolve both ids, and upsert the motherboard part. -/
def insertMotherboard (db : Db) (system_id : Nat) (motherboard : CompRec) : Option Db := do
  let part_type ← dictLookup TYPE_DICT "motherboard"
  let part_type_id ← get_part_type_id db part_type
  let manufacturer ← dictLookup MANUFACTURER_DICT (pyLower motherboard.manufacturer)
  let manufacturer_id ← get_manufacturer_id db manufacturer
  some (insert_part db system_id motherboard.model motherboard.serial
    part_type_id manufacturer_id).1

/-- The shared head of the PSU/SSD/NIC blocks: translate the type key and
resolve the part type id once, then run the loop over the records. -/
def insertTypeBatch (db : Db) (system_id : Nat) (typeKey : String)
    (recs : List CompRec) : Option Db := do
  let part_type ← dictLookup TYPE_DICT typeKey
  let part_type_id ← get_part_type_id db part_type
  insertPartsWithType db system_id part_type_id recs

/-- The IPMI password block of `update_std` (lines 663-673): a fixed part
record attributed to the `ixsystems` manufacturer entry. -/
def insertPassword (db : Db) (system_id : Nat) : Option Db := do
  let part_type ← dictLookup TYPE_DICT "password"
  let part_type_id ← get_part_type_id db part_type
  let manufacturer ← dictLookup MANUFACTURER_DICT "ixsystems"
  let manufacturer_id ← get_manufacturer_id db manufacturer
  some (insert_part db system_id "IPMI Password" "Password123"
    part_type_id manufacturer_id).1

/-- The per-system body of `update_std` (lines 570-684), in source order:
read the reporting counter, resolve the system id (fatal when absent), then
upsert the motherboard, CPUs, memory, PSUs, SSDs, NICs, the IPMI password
part, and the MAC addresses.  `none` is any fatal error, which in the
source rolls back the transaction and terminates the process. -/
def processSystem (db : Db) (ix_serial : String) (components : Components) : Option Db := do
  let _pre_insertion_total := db.rows_inserted
  let system_id ← get_system_id db ix_serial
  let db1 ← insertMotherboard db system_id components.motherboard
  let db2 ← insertPartsEachType db1 system_id "cpu" components.cpu
  let db3 ← insertPartsEachType db2 system_id "memory" components.memory
  let db4 ← insertTypeBatch db3 system_id "psu" components.psu
  let db5 ← insertTypeBatch db4 system_id "ssd" components.ssd
  let db6 ← insertTypeBatch db5 system_id "nic" components.nic
  let db7 ← insertPassword db6 system_id
  insertMacs db7 system_id components.mac

/-- The batch loop of `update_std`: process every system in order inside
the single open transaction; any fatal error short-circuits. -/
def processAll : List (String × Components) → Db → Option Db
  | [], db => some db
  | (ix_serial, components) :: rest, db => do
    let db' ← processSystem db ix_serial components
    processAll rest db'

/-- Function `update_std` (lines 559-688) as a map from the persistent database
state to the persistent state after the run: the whole batch runs in one
session; `std.commit()` is issued once, after the loop over all systems
completes, making the working state persistent; any fatal error instead
reaches `close()` with its default `commit=False`, which rolls the
transaction back, leaving the persistent state unchanged. -/
def update_std (systems : List (String × Components)) (db : Db) : Db :=
  match processAll systems db with
  | some db' => db'
  | none => db

/-- The part records of a bundle whose manufacturer strings `update_std`
translates through `MANUFACTURER_DICT`, in processing order. -/
def ComponentsPartRecs (c : Components) : List CompRec :=
  c.motherboard :: (c.cpu ++ c.memory ++ c.psu ++ c.ssd ++ c.nic)

/-- A store with all tables empty, used for concrete instantiations. -/
def emptyDb : Db :=
  { systems := [], manufacturers := [], types := [], parts := [], macs := [],
    nextPartId := 1, nextMacId := 1, partLog := [], macLog := [] }

/-- A bundle whose motherboard manufacturer has no entry in the
translation table. -/
def unmappedComponents : Components :=
  { motherboard := { manufacturer := "Supermicro", model := "X11SSH", serial := "ZM001" },
    cpu := [], memory := [], psu := [], ssd := [], nic := [], mac := [] }

/-! ## Helper lemmas -/

/-- Substituting the empty string for a character removes exactly the
occurrences of that character. -/
theorem reSubChar_go_empty (c : Char) (l : List Char) :
    reSubChar.go c "" l = l.filter (fun d => d ≠ c) := by
  induction l with
  | nil => rfl
  | cons d rest ih =>
    by_cases h : d = c <;> simp [reSubChar.go, h, ih]

/-! ## Claim theorems -/

/-- C9: for every system serial string fetched from the database, the
cleaning step removes all asterisk characters and only asterisk characters
(the remaining characters are kept in order); in particular raw serial
`A1*-102049*` cleans to `A1-102049`. -/
theorem asterisk_stripping (s : String) :
    (cleanSerial s).data = s.data.filter (fun d => d ≠ '*')
    ∧ cleanSerial "A1*-102049*" = "A1-102049" := by
  refine ⟨?_, by decide⟩
  show (String.mk (reSubChar.go '*' "" s.data)).data = _
  rw [reSubChar_go_empty]

/-- C6: for every non-empty line (the header line is dropped by
`parseDimmFile` before the per-line loop runs), after splitting the
stripped line on runs of two or more whitespace characters and discarding
tokens of length at most five, the line yields an output record exactly
when at least six tokens remain, and the record's manufacturer, part number
and DIMM serial are the third, fourth and fifth remaining tokens (as
strings), with the system serial taken from the directory lookup. -/
theorem dimm_line_parsing (systemSerial line : String)
    (hline : pyStrip line ≠ "") :
    ((qualifyingColumns line).length ≥ 6 →
      parseDimmLine systemSerial line = some {
        systemSerial := systemSerial,
        dimmSerial := pyStrip ((qualifyingColumns line).getD 4 ""),
        dimmManufacturer := pyStrip ((qualifyingColumns line).getD 2 ""),
        dimmPartNumber := pyStrip ((qualifyingColumns line).getD 3 "") })
    ∧ ((qualifyingColumns line).length < 6 →
      parseDimmLine systemSerial line = none) := by
  unfold parseDimmLine
  rw [if_pos hline]
  constructor
  · intro h
    rw [if_pos h]
  · intro h
    rw [if_neg (by omega)]

/-- Witness for C6 at a concrete line with six qualifying tokens. -/
theorem dimm_line_parsing_witness :
    parseDimmLine "A1-102049"
        "DIMM_A0  LOCAT1  MFGAAA  PARTNUM123  SERIAL000123  STATUS"
      = some ⟨"A1-102049", "SERIAL000123", "MFGAAA", "PARTNUM123"⟩ := by
  have h := (dimm_line_parsing "A1-102049"
    "DIMM_A0  LOCAT1  MFGAAA  PARTNUM123  SERIAL000123  STATUS"
    (by decide)).1 (by decide)
  exact h.trans (by decide)

/-- C10: a line of the key file is a comment exactly when its first raw
character is `#`; any other line is fatal exactly when its stripped
whitespace split does not have exactly two tokens; in particular the empty
line and the bare newline line abort the run. -/
theorem key_file_line_parsing (line : String) :
    (processKeyLine line = .comment ↔ line.data.head? = some '#')
    ∧ (line.data.head? ≠ some '#' →
        (processKeyLine line = .fatal ↔ (pySplit (pyStrip line)).length ≠ 2))
    ∧ processKeyLine "" = .fatal
    ∧ processKeyLine "\n" = .fatal := by
  refine ⟨?_, ?_, by decide, by decide⟩
  · cases line with
    | mk data =>
      cases data with
      | nil => decide
      | cons c rest =>
        by_cases hc : c = '#'
        · subst hc
          simp only [processKeyLine]
          rw [if_pos ⟨by simp [String.length], rfl⟩]
          simp
        · simp only [processKeyLine]
          rw [if_neg (by simp [hc])]
          constructor
          · intro h
            by_cases h2 : (pySplit (pyStrip ⟨c :: rest⟩)).length ≠ 2 <;>
              simp [h2] at h
          · intro h
            simp [hc] at h
  · intro hne
    cases line with
    | mk data =>
      cases data with
      | nil =>
        simp only [processKeyLine]
        rw [if_neg (by simp [String.length])]
        by_cases h2 : (pySplit (pyStrip ⟨([] : List Char)⟩)).length ≠ 2 <;>
          simp [h2]
      | cons c rest =>
        have hc : c ≠ '#' := by
          intro h
          exact hne (by simp [h])
        simp only [processKeyLine]
        rw [if_neg (by simp [hc])]
        by_cases h2 : (pySplit (pyStrip ⟨c :: rest⟩)).length ≠ 2 <;>
          simp [h2]

/-- Witness for C10: a non-comment line with three tokens is fatal. -/
theorem key_file_line_parsing_witness :
    processKeyLine "10.48.143.80 A1-102049 extra" = .fatal :=
  ((key_file_line_parsing "10.48.143.80 A1-102049 extra").2.1
    (by decide)).mpr (by decide)

/-- C3: in the memory loop a slot is skipped (no record appended) exactly
when both its part number and its serial are absent, i.e. reported by the
API as JSON `null` (a key missing from the body is instead defaulted to the
empty string by `get` and is not treated as absent); any slot with at least
one of the two present contributes exactly one record to the bundle. -/
theorem memory_slot_skip (body : MemBody) (bodies : List MemBody) :
    ((body.partNumber = .null ∧ body.serialNumber = .null) ↔ memoryStep body = none)
    ∧ (memoryRecords (body :: bodies)).length
        = (if body.partNumber = .null ∧ body.serialNumber = .null then 0 else 1)
          + (memoryRecords bodies).length := by
  have hiff : (body.partNumber = .null ∧ body.serialNumber = .null) ↔ memoryStep body = none := by
    constructor
    · rintro ⟨h1, h2⟩
      simp [memoryStep, h1, h2, FieldVal.getD]
    · intro h
      cases hb1 : body.partNumber with
      | null =>
        cases hb2 : body.serialNumber with
        | null => exact ⟨rfl, rfl⟩
        | missing => simp [memoryStep, FieldVal.getD, hb1, hb2] at h
        | str s => simp [memoryStep, FieldVal.getD, hb1, hb2] at h
      | missing => simp [memoryStep, FieldVal.getD, hb1] at h
      | str s => simp [memoryStep, FieldVal.getD, hb1] at h
  refine ⟨hiff, ?_⟩
  by_cases h : body.partNumber = .null ∧ body.serialNumber = .null
  · have := hiff.mp h
    simp [memoryRecords, List.filterMap_cons, this, h]
  · have hsome : memoryStep body ≠ none := fun hn => h (hiff.mpr hn)
    obtain ⟨rec, hrec⟩ := Option.ne_none_iff_exists'.mp hsome
    simp [memoryRecords, List.filterMap_cons, hrec, h]
    omega

/-- Witness for C3: a slot with both fields `null` is skipped. -/
theorem memory_slot_skip_witness :
    memoryStep ⟨.str "Samsung", .null, .null⟩ = none :=
  (memory_slot_skip ⟨.str "Samsung", .null, .null⟩ []).1.mp (by decide)

/-- C5: `get_http_response_body` is not lenient as claimed.  A successful
response with an undecodable JSON body aborts the pipeline (the handler
clause names the nonexistent `requests.RequestsJSONDecodeError`, raising
`AttributeError`) instead of returning the empty dict and continuing; and
a successful response whose body is valid non-object JSON, such as the
array `[]`, is returned unchanged and is not a dict.  Only the HTTP
failure path returns the empty dict as claimed. -/
theorem http_fetch_not_lenient :
    get_http_response_body ⟨true, none⟩ = none
    ∧ get_http_response_body ⟨true, some (Json.arr [])⟩ = some (Json.arr [])
    ∧ (Json.arr []).isObj = false
    ∧ get_http_response_body ⟨false, none⟩ = some (Json.obj [])
    ∧ get_http_response_body ⟨false, some (Json.arr [])⟩ = some (Json.obj []) :=
  ⟨rfl, rfl, rfl, rfl, rfl⟩

/-- C1: `insert_part` is an idempotent upsert.  If a row matching
(system, model, serial) exists, nothing is inserted, the insert log is
untouched and the existing (first matching) row's id is returned; if none
exists, exactly one row with the given attributes plus the fixed defaults
is appended and its fresh id returned and logged.  Consequently a second
run with the same input returns the same state and id as the first, the
second run appends nothing to the insert log, and (given the uniqueness
invariant, at most one matching row) exactly one matching Part row remains
after the two runs. -/
theorem insert_part_upsert (db : Db) (system_id : Nat)
    (part_model part_serial : String) (type_id manufacturer_id : Nat)
    (hinv : (partMatches db system_id part_model part_serial).length ≤ 1) :
    (∀ r rest, partMatches db system_id part_model part_serial = r :: rest →
      insert_part db system_id part_model part_serial type_id manufacturer_id = (db, r.id))
    ∧ (partMatches db system_id part_model part_serial = [] →
      insert_part db system_id part_model part_serial type_id manufacturer_id
        = ({ db with
              parts := db.parts ++ [{
                id := db.nextPartId,
                system_id := system_id,
                serial := part_serial,
                model := part_model,
                type_id := type_id,
                manufacturer_id := manufacturer_id,
                intel_sa_number := "",
                support_number := "",
                rma := false,
                revision := "",
                part_revision := "" }],
              nextPartId := db.nextPartId + 1,
              partLog := db.partLog ++ [db.nextPartId] },
           db.nextPartId))
    ∧ insert_part
        (insert_part db system_id part_model part_serial type_id manufacturer_id).1
        system_id part_model part_serial type_id manufacturer_id
      = insert_part db system_id part_model part_serial type_id manufacturer_id
    ∧ (insert_part
        (insert_part db system_id part_model part_serial type_id manufacturer_id).1
        system_id part_model part_serial type_id manufacturer_id).1.partLog
      = (insert_part db system_id part_model part_serial type_id manufacturer_id).1.partLog
    ∧ (partMatches
        (insert_part db system_id part_model part_serial type_id manufacturer_id).1
        system_id part_model part_serial).length = 1 := by
  cases hm : partMatches db system_id part_model part_serial with
  | nil =>
    have hfirst : insert_part db system_id part_model part_serial type_id manufacturer_id
        = ({ db with
              parts := db.parts ++ [{
                id := db.nextPartId,
                system_id := system_id,
                serial := part_serial,
                model := part_model,
                type_id := type_id,
                manufacturer_id := manufacturer_id,
                intel_sa_number := "",
                support_number := "",
                rma := false,
                revision := "",
                part_revision := "" }],
              nextPartId := db.nextPartId + 1,
              partLog := db.partLog ++ [db.nextPartId] },
           db.nextPartId) := by
      simp only [insert_part, hm]
    have hmatch2 : partMatches
        ({ db with
              parts := db.parts ++ [{
                id := db.nextPartId,
                system_id := system_id,
                serial := part_serial,
                model := part_model,
                type_id := type_id,
                manufacturer_id := manufacturer_id,
                intel_sa_number := "",
                support_number := "",
                rma := false,
                revision := "",
                part_revision := "" }],
              nextPartId := db.nextPartId + 1,
              partLog := db.partLog ++ [db.nextPartId] } : Db)
        system_id part_model part_serial
        = [{ id := db.nextPartId,
             system_id := system_id,
             serial := part_serial,
             model := part_model,
             type_id := type_id,
             manufacturer_id := manufacturer_id,
             intel_sa_number := "",
             support_number := "",
             rma := false,
             revision := "",
             part_revision := "" }] := by
      simp only [partMatches] at hm ⊢
      simp [List.filter_append, hm]
    have hsecond : insert_part
        (insert_part db system_id part_model part_serial type_id manufacturer_id).1
        system_id part_model part_serial type_id manufacturer_id
        = insert_part db system_id part_model part_serial type_id manufacturer_id := by
      simp only [hfirst]
      simp only [insert_part, hmatch2]
    refine ⟨?_, fun _ => hfirst, hsecond, congrArg (fun p => p.1.partLog) hsecond, ?_⟩
    · intro r rest h
      exact absurd h (by simp)
    · simp only [hfirst, hmatch2]
      rfl
  | cons r rest =>
    have hrest : rest = [] := by
      have hlen := hinv
      rw [hm] at hlen
      simp only [List.length_cons] at hlen
      exact List.length_eq_zero.mp (by omega)
    subst hrest
    have hfirst : insert_part db system_id part_model part_serial type_id manufacturer_id
        = (db, r.id) := by
      simp only [insert_part, hm]
    have hsecond : insert_part
        (insert_part db system_id part_model part_serial type_id manufacturer_id).1
        system_id part_model part_serial type_id manufacturer_id
        = insert_part db system_id part_model part_serial type_id manufacturer_id := by
      rw [hfirst]
      exact hfirst
    refine ⟨?_, ?_, hsecond, congrArg (fun p => p.1.partLog) hsecond, ?_⟩
    · intro r' rest' h
      injection h with h1 h2
      subst h1
      exact hfirst
    · intro h
      exact absurd h (by simp)
    · simp only [hfirst, hm]
      rfl

/-- Witness for C1 starting from the empty parts store. -/
theorem insert_part_upsert_witness :
    (partMatches emptyDb 1 "SR630" "J9000001").length ≤ 1
    ∧ insert_part (insert_part emptyDb 1 "SR630" "J9000001" 2 3).1 1 "SR630" "J9000001" 2 3
      = insert_part emptyDb 1 "SR630" "J9000001" 2 3
    ∧ (partMatches (insert_part emptyDb 1 "SR630" "J9000001" 2 3).1 1 "SR630" "J9000001").length = 1 :=
  ⟨by decide,
   (insert_part_upsert emptyDb 1 "SR630" "J9000001" 2 3 (by decide)).2.2.1,
   (insert_part_upsert emptyDb 1 "SR630" "J9000001" 2 3 (by decide)).2.2.2.2⟩

/-- C7: an address longer than 17 characters makes `insert_mac` fail
fatally, with no existence check and no insert (the result is `none`
whatever the store contents); for an address of at most 17 characters the
existence-check-then-insert keyed on (system, name) proceeds: an existing
key returns its first row's id with the store unchanged, a missing key
inserts exactly one row and logs and returns its fresh id. -/
theorem mac_validation (db : Db) (system_id : Nat) (mac_name mac_address : String) :
    (mac_address.length > 17 → insert_mac db system_id mac_name mac_address = none)
    ∧ (mac_address.length ≤ 17 →
        (macMatches db system_id mac_name = [] →
          insert_mac db system_id mac_name mac_address
            = some ({ db with
                macs := db.macs ++ [{
                  id := db.nextMacId,
                  system_id := system_id,
                  name := mac_name,
                  mac := mac_address }],
                nextMacId := db.nextMacId + 1,
                macLog := db.macLog ++ [db.nextMacId] },
              db.nextMacId))
        ∧ ∀ r rest, macMatches db system_id mac_name = r :: rest →
            insert_mac db system_id mac_name mac_address = some (db, r.id)) := by
  constructor
  · intro h
    simp only [insert_mac, if_pos h]
  · intro h
    have hn : ¬ mac_address.length > 17 := by omega
    constructor
    · intro hm
      simp only [insert_mac, if_neg hn, hm]
    · intro r rest hm
      simp only [insert_mac, if_neg hn, hm]

/-- Witness for C7: an 18-character address is rejected; a 17-character
address on a fresh key is inserted. -/
theorem mac_validation_witness :
    insert_mac emptyDb 1 "NIC 1 MAC" "AA:BB:CC:DD:EE:FFX" = none
    ∧ insert_mac emptyDb 1 "NIC 1 MAC" "AA:BB:CC:DD:EE:FF"
      = some ({ emptyDb with
          macs := [{ id := 1, system_id := 1, name := "NIC 1 MAC", mac := "AA:BB:CC:DD:EE:FF" }],
          nextMacId := 2,
          macLog := [1] }, 1) :=
  ⟨(mac_validation emptyDb 1 "NIC 1 MAC" "AA:BB:CC:DD:EE:FFX").1 (by decide),
   ((mac_validation emptyDb 1 "NIC 1 MAC" "AA:BB:CC:DD:EE:FF").2 (by decide)).1
     (by decide) |>.trans (by decide)⟩

/-- The NIC MAC loop with an arbitrary starting counter enumerates the
kept members with consecutive numbers from that counter. -/
theorem nicMacGo_eq (fetchMac : String → String) (l : List EthMember) (n : Nat) :
    nicMacGo fetchMac l n
      = (l.filter (fun m => pyInStr "NIC" (m.odata.getD ""))).mapIdx
          (fun i m => { name := "NIC " ++ toString (i + n) ++ " MAC",
                        mac := fetchMac (m.odata.getD "") }) := by
  induction l generalizing n with
  | nil => rfl
  | cons m rest ih =>
    cases h : pyInStr "NIC" (m.odata.getD "") with
    | true =>
      simp only [nicMacGo, h, if_true, List.filter_cons, List.mapIdx_cons, ih]
      rw [Nat.zero_add]
      have hf : (fun i (mm : EthMember) =>
            ({ name := "NIC " ++ toString (i + 1 + n) ++ " MAC",
               mac := fetchMac (mm.odata.getD "") } : MacEntry))
          = (fun i mm =>
            { name := "NIC " ++ toString (i + (n + 1)) ++ " MAC",
              mac := fetchMac (mm.odata.getD "") }) := by
        funext i mm
        rw [show i + 1 + n = i + (n + 1) by omega]
      rw [hf]
    | false =>
      simp only [nicMacGo, h, List.filter_cons, ih]
      simp

/-- C8: the records appended by the NIC MAC loop are exactly the members
whose link contains the substring `NIC` (the filter that excludes the
management controller's own interface), in discovery order, the k-th kept
member receiving the display name `NIC k MAC` with k counted from 1 and no
gaps. -/
theorem nic_mac_enumeration (fetchMac : String → String) (members : List EthMember) :
    nicMacRecords fetchMac members
      = (members.filter (fun m => pyInStr "NIC" (m.odata.getD ""))).mapIdx
          (fun i m => { name := "NIC " ++ toString (i + 1) ++ " MAC",
                        mac := fetchMac (m.odata.getD "") }) :=
  nicMacGo_eq fetchMac members 1

/-! ## Lemmas about update_std for the transaction claims -/

/-- Upserting a part never changes the systems table. -/
theorem insert_part_systems (db : Db) (sid : Nat) (pm ps : String) (tid mid : Nat) :
    (insert_part db sid pm ps tid mid).1.systems = db.systems := by
  unfold insert_part
  split <;> rfl

/-- Upserting a MAC never changes the systems table. -/
theorem insert_mac_systems {db db' : Db} {sid rid : Nat} {nm ad : String}
    (h : insert_mac db sid nm ad = some (db', rid)) : db'.systems = db.systems := by
  unfold insert_mac at h
  split at h
  · exact absurd h (by simp)
  · split at h <;>
    · simp only [Option.some.injEq, Prod.mk.injEq] at h
      rw [← h.1]

/-- The PSU/SSD/NIC loop preserves the systems table. -/
theorem insertPartsWithType_systems {db db' : Db} {sid tid : Nat} {recs : List CompRec}
    (h : insertPartsWithType db sid tid recs = some db') : db'.systems = db.systems := by
  induction recs generalizing db with
  | nil =>
    simp only [insertPartsWithType] at h
    injection h with h1
    rw [← h1]
  | cons r rest ih =>
    simp only [insertPartsWithType, bind, Option.bind_eq_some] at h
    obtain ⟨m, hm, mid, hmid, hrest⟩ := h
    exact (ih hrest).trans (insert_part_systems db sid r.model r.serial tid mid)

/-- The CPU/memory loop preserves the systems table. -/
theorem insertPartsEachType_systems {db db' : Db} {sid : Nat} {key : String}
    {recs : List CompRec}
    (h : insertPartsEachType db sid key recs = some db') : db'.systems = db.systems := by
  induction recs generalizing db with
  | nil =>
    simp only [insertPartsEachType] at h
    injection h with h1
    rw [← h1]
  | cons r rest ih =>
    simp only [insertPartsEachType, bind, Option.bind_eq_some] at h
    obtain ⟨pt, hpt, tid, htid, m, hm, mid, hmid, hrest⟩ := h
    exact (ih hrest).trans (insert_part_systems db sid r.model r.serial tid mid)

/-- The MAC loop preserves the systems table. -/
theorem insertMacs_systems {db db' : Db} {sid : Nat} {recs : List MacRec}
    (h : insertMacs db sid recs = some db') : db'.systems = db.systems := by
  induction recs generalizing db with
  | nil =>
    simp only [insertMacs] at h
    injection h with h1
    rw [← h1]
  | cons r rest ih =>
    simp only [insertMacs, bind, Option.bind_eq_some] at h
    obtain ⟨⟨db1, rid⟩, hmac, hrest⟩ := h
    exact (ih hrest).trans (insert_mac_systems hmac)

/-- The motherboard block preserves the systems table. -/
theorem insertMotherboard_systems {db db' : Db} {sid : Nat} {mb : CompRec}
    (h : insertMotherboard db sid mb = some db') : db'.systems = db.systems := by
  simp only [insertMotherboard, bind, Option.bind_eq_some] at h
  obtain ⟨pt, hpt, tid, htid, m, hm, mid, hmid, hdb⟩ := h
  injection hdb with h1
  rw [← h1]
  exact insert_part_systems db sid mb.model mb.serial tid mid

/-- The typed batch block preserves the systems table. -/
theorem insertTypeBatch_systems {db db' : Db} {sid : Nat} {key : String}
    {recs : List CompRec}
    (h : insertTypeBatch db sid key recs = some db') : db'.systems = db.systems := by
  simp only [insertTypeBatch, bind, Option.bind_eq_some] at h
  obtain ⟨pt, hpt, tid, htid, hrecs⟩ := h
  exact insertPartsWithType_systems hrecs

/-- The password block preserves the systems table. -/
theorem insertPassword_systems {db db' : Db} {sid : Nat}
    (h : insertPassword db sid = some db') : db'.systems = db.systems := by
  simp only [insertPassword, bind, Option.bind_eq_some] at h
  obtain ⟨pt, hpt, tid, htid, m, hm, mid, hmid, hdb⟩ := h
  injection hdb with h1
  rw [← h1]
  exact insert_part_systems db sid "IPMI Password" "Password123" tid mid

/-- A successfully processed system had its serial resolved against the
incoming store, and processing preserves the systems table. -/
theorem processSystem_inv {db db' : Db} {s : String} {c : Components}
    (h : processSystem db s c = some db') :
    (∃ sid, get_system_id db s = some sid) ∧ db'.systems = db.systems := by
  simp only [processSystem, bind, Option.bind_eq_some] at h
  obtain ⟨sid, hsid, db1, hmb, db2, hcpu, db3, hmem, db4, hpsu, db5, hssd, db6,
    hnic, db7, hpw, hmac⟩ := h
  refine ⟨⟨sid, hsid⟩, ?_⟩
  calc db'.systems = db7.systems := insertMacs_systems hmac
    _ = db6.systems := insertPassword_systems hpw
    _ = db5.systems := insertTypeBatch_systems hnic
    _ = db4.systems := insertTypeBatch_systems hssd
    _ = db3.systems := insertTypeBatch_systems hpsu
    _ = db2.systems := insertPartsEachType_systems hmem
    _ = db1.systems := insertPartsEachType_systems hcpu
    _ = db.systems := insertMotherboard_systems hmb

/-- A successful batch run resolved every system serial against the
original store. -/
theorem processAll_inv {systems : List (String × Components)} {db dbf : Db}
    (h : processAll systems db = some dbf) :
    dbf.systems = db.systems
    ∧ ∀ p ∈ systems, ∃ sid, get_system_id db p.1 = some sid := by
  induction systems generalizing db with
  | nil =>
    simp only [processAll] at h
    injection h with h1
    rw [← h1]
    exact ⟨rfl, by simp⟩
  | cons q rest ih =>
    obtain ⟨s, c⟩ := q
    simp only [processAll, bind, Option.bind_eq_some] at h
    obtain ⟨db1, h1, h2⟩ := h
    obtain ⟨⟨sid, hsid⟩, hsys1⟩ := processSystem_inv h1
    obtain ⟨hsysf, hrest⟩ := ih h2
    refine ⟨hsysf.trans hsys1, ?_⟩
    intro p hp
    rcases List.mem_cons.mp hp with he | he
    · subst he
      exact ⟨sid, hsid⟩
    · obtain ⟨sid', hsid'⟩ := hrest p he
      refine ⟨sid', ?_⟩
      rw [← hsid']
      unfold get_system_id
      rw [hsys1]

/-- C2: the batch is atomic — either some fatal error occurs, no commit is
issued and the persistent store is exactly the original (every working
insert rolled back), or the whole batch succeeds, the single commit makes
the fully imported working state persistent, and every system of the batch
was processed (its serial resolved against the store). -/
theorem update_std_atomic (systems : List (String × Components)) (db : Db) :
    (processAll systems db = none ∧ update_std systems db = db)
    ∨ (∃ dbf, processAll systems db = some dbf ∧ update_std systems db = dbf
        ∧ ∀ p ∈ systems, ∃ sid, get_system_id db p.1 = some sid) := by
  cases hp : processAll systems db with
  | none =>
    exact Or.inl ⟨rfl, by simp only [update_std, hp]⟩
  | some dbf =>
    exact Or.inr ⟨dbf, rfl, by simp only [update_std, hp], (processAll_inv hp).2⟩

/-! ## Lemmas for the normalizer fatal-abort claim -/

/-- Success of the PSU/SSD/NIC loop needs every record's manufacturer to be
in the translation table. -/
theorem insertPartsWithType_lookup {db db' : Db} {sid tid : Nat} {recs : List CompRec}
    (h : insertPartsWithType db sid tid recs = some db') :
    ∀ rec ∈ recs, ∃ m, dictLookup MANUFACTURER_DICT (pyLower rec.manufacturer) = some m := by
  induction recs generalizing db with
  | nil =>
    intro rec hrec
    cases hrec
  | cons r rest ih =>
    simp only [insertPartsWithType, bind, Option.bind_eq_some] at h
    obtain ⟨m, hm, mid, hmid, hrest⟩ := h
    intro rec hrec
    rcases List.mem_cons.mp hrec with he | he
    · subst he
      exact ⟨m, hm⟩
    · exact ih hrest rec he

/-- Success of the CPU/memory loop needs every record's manufacturer to be
in the translation table. -/
theorem insertPartsEachType_lookup {db db' : Db} {sid : Nat} {key : String}
    {recs : List CompRec}
    (h : insertPartsEachType db sid key recs = some db') :
    ∀ rec ∈ recs, ∃ m, dictLookup MANUFACTURER_DICT (pyLower rec.manufacturer) = some m := by
  induction recs generalizing db with
  | nil =>
    intro rec hrec
    cases hrec
  | cons r rest ih =>
    simp only [insertPartsEachType, bind, Option.bind_eq_some] at h
    obtain ⟨pt, hpt, tid, htid, m, hm, mid, hmid, hrest⟩ := h
    intro rec hrec
    rcases List.mem_cons.mp hrec with he | he
    · subst he
      exact ⟨m, hm⟩
    · exact ih hrest rec he

/-- Success of the motherboard block needs its manufacturer to be in the
translation table. -/
theorem insertMotherboard_lookup {db db' : Db} {sid : Nat} {mb : CompRec}
    (h : insertMotherboard db sid mb = some db') :
    ∃ m, dictLookup MANUFACTURER_DICT (pyLower mb.manufacturer) = some m := by
  simp only [insertMotherboard, bind, Option.bind_eq_some] at h
  obtain ⟨pt, hpt, tid, htid, m, hm, _⟩ := h
  exact ⟨m, hm⟩

/-- Success of the typed batch block needs every record's manufacturer to
be in the translation table. -/
theorem insertTypeBatch_lookup {db db' : Db} {sid : Nat} {key : String}
    {recs : List CompRec}
    (h : insertTypeBatch db sid key recs = some db') :
    ∀ rec ∈ recs, ∃ m, dictLookup MANUFACTURER_DICT (pyLower rec.manufacturer) = some m := by
  simp only [insertTypeBatch, bind, Option.bind_eq_some] at h
  obtain ⟨pt, hpt, tid, htid, hrecs⟩ := h
  exact insertPartsWithType_lookup hrecs

/-- A successfully processed system translated every one of its part
records' manufacturers. -/
theorem processSystem_lookup {db db' : Db} {s : String} {c : Components}
    (h : processSystem db s c = some db') :
    ∀ rec ∈ ComponentsPartRecs c,
      ∃ m, dictLookup MANUFACTURER_DICT (pyLower rec.manufacturer) = some m := by
  simp only [processSystem, bind, Option.bind_eq_some] at h
  obtain ⟨sid, hsid, db1, hmb, db2, hcpu, db3, hmem, db4, hpsu, db5, hssd, db6,
    hnic, db7, hpw, hmac⟩ := h
  intro rec hrec
  simp only [ComponentsPartRecs, List.mem_cons, List.mem_append] at hrec
  rcases hrec with he | ⟨⟨⟨he | he⟩ | he⟩ | he⟩ | he
  · subst he
    exact insertMotherboard_lookup hmb
  · exact insertPartsEachType_lookup hcpu rec he
  · exact insertPartsEachType_lookup hmem rec he
  · exact insertTypeBatch_lookup hpsu rec he
  · exact insertTypeBatch_lookup hssd rec he
  · exact insertTypeBatch_lookup hnic rec he

/-- A batch containing any part record with an untranslatable manufacturer
cannot complete: processing reaches no commit. -/
theorem processAll_abort {systems : List (String × Components)} {db : Db}
    (h : ∃ p ∈ systems, ∃ rec ∈ ComponentsPartRecs p.2,
      dictLookup MANUFACTURER_DICT (pyLower rec.manufacturer) = none) :
    processAll systems db = none := by
  induction systems generalizing db with
  | nil =>
    obtain ⟨p, hp, _⟩ := h
    cases hp
  | cons q rest ih =>
    obtain ⟨s, c⟩ := q
    cases hps : processSystem db s c with
    | none =>
      simp [processAll, hps]
    | some db1 =>
      rcases h with ⟨p, hp, rec, hrec, hnone⟩
      rcases List.mem_cons.mp hp with he | he
      · subst he
        obtain ⟨m, hm⟩ := processSystem_lookup hps rec hrec
        rw [hnone] at hm
        cases hm
      · have hr : processAll rest db1 = none := ih ⟨p, he, rec, hrec, hnone⟩
        simp [processAll, hps, hr]

/-- C4: a batch containing any component record whose case-folded
manufacturer has no entry in the static translation table aborts with a
fatal error: the single commit is never reached and the persistent store
is returned unchanged, no rows committed. -/
theorem normalizer_fatal_abort (systems : List (String × Components)) (db : Db)
    (h : ∃ p ∈ systems, ∃ rec ∈ ComponentsPartRecs p.2,
      dictLookup MANUFACTURER_DICT (pyLower rec.manufacturer) = none) :
    processAll systems db = none ∧ update_std systems db = db := by
  have hp := @processAll_abort systems db h
  exact ⟨hp, by simp only [update_std, hp]⟩

/-- Witness for C4: one system whose motherboard manufacturer is not in
the translation table leaves the store untouched. -/
theorem normalizer_fatal_abort_witness :
    update_std [("A1-102049", unmappedComponents)] emptyDb = emptyDb :=
  (normalizer_fatal_abort [("A1-102049", unmappedComponents)] emptyDb
    ⟨("A1-102049", unmappedComponents), by simp,
     unmappedComponents.motherboard, by simp [ComponentsPartRecs], by decide⟩).2

end Std2Proof
